import Mathlib

/-!
Verification of the `utilities` repository (three command-line tools:
a HEIC batch format converter, a grid-layout PDF composer, and a PDF
page replicator) against its natural-language specification.

Each Python function relevant to the specification is shallowly embedded
as an executable Lean definition; file-system and library effects
(decode, encode/write, delete) are represented by explicit oracles and
state records, and Python floats are modelled as exact rationals.
-/

/-- Suffix test on file names, used to model a directory glob such as
`*.heic`: the pattern matches exactly the entry names that end with the
literal extension (glob matching is case-sensitive).  Characters are
compared one by one, as `fnmatch` does. -/
def endsWithExt (ext name : String) : Bool :=
  ext.data.isSuffixOf name.data

/-- Lower-casing of a file name, character by character (model of
Python's `str.lower` restricted to the ASCII names used here). -/
def lowerName (name : String) : String :=
  String.mk (name.data.map Char.toLower)

namespace Heic

/-! ## Format Converter (`src/python/image/heic_converter/heic.py`) -/

/-- Per-file effect oracle: whether each externally-effectful step of
`convert_one` succeeds if attempted (`pyheif.read`, `image.save`,
`heic_file.unlink`). -/
structure FileEnv where
  decodeOk : Bool
  saveOk : Bool
  unlinkOk : Bool
deriving DecidableEq, Repr

/-- File-system state relevant to one conversion: whether the source
file and the output file currently exist. -/
structure ConvState where
  sourceExists : Bool
  outputExists : Bool
deriving DecidableEq, Repr

/-- Embedding of `convert_one` (heic.py lines 53-67).  The body is a
single `try` block: decode, construct the image, `image.save`, then
(if `delete_original`) `unlink`.  Any exception is caught and reported
as a per-file failure `(False, msg)`; a successful run reports
`(True, msg)`.  A step that fails raises before later steps run, so a
failed decode or save leaves the state as it was, and a failed unlink
leaves the already-written output in place. -/
def convert_one (delete_original : Bool) (env : FileEnv) (s : ConvState) :
    Bool × ConvState :=
  if !env.decodeOk then
    (false, s)
  else if !env.saveOk then
    (false, s)
  else
    let s1 : ConvState := { s with outputExists := true }
    if delete_original then
      if env.unlinkOk then
        (true, { s1 with sourceExists := false })
      else
        (false, s1)
    else
      (true, s1)

/-- Embedding of the discovery step (heic.py lines 45-46):
`list(input_path.glob("*.heic")) + list(input_path.glob("*.HEIC"))`.
A directory is modelled as the list of names of its entries; the glob
pattern `*.heic` matches exactly the names ending in `.heic`. -/
def heic_files (dir : List String) : List String :=
  dir.filter (fun n => endsWithExt ".heic" n) ++
    dir.filter (fun n => endsWithExt ".HEIC" n)

/-- The spec's discovery predicate, for comparison with `heic_files`:
the extension case-insensitively equals `heic`. -/
def extMatchesHeicInsensitive (name : String) : Bool :=
  endsWithExt ".heic" (lowerName name)

/-- Whether one conversion succeeds, starting from the per-file initial
state (source present, output absent). -/
def fileSucceeds (delete_original : Bool) (env : FileEnv) : Bool :=
  (convert_one delete_original env ⟨true, false⟩).1

/-- Whether one conversion leaves a written output file, starting from
the per-file initial state. -/
def fileOutputWritten (delete_original : Bool) (env : FileEnv) : Bool :=
  (convert_one delete_original env ⟨true, false⟩).2.outputExists

/-- Embedding of the result-collection loop (heic.py lines 70-91).
Both execution modes run the same loop body over per-file results,
incrementing `converted_count` on success and `failed_count` on
failure; they differ only in the order in which results arrive
(list order sequentially, `as_completed` order in parallel), so the
batch is a fold over the processing order. -/
def run_batch (delete_original : Bool) (order : List (String × FileEnv)) :
    ℕ × ℕ :=
  order.foldl
    (fun acc f =>
      if fileSucceeds delete_original f.2 then (acc.1 + 1, acc.2)
      else (acc.1, acc.2 + 1))
    (0, 0)

/-- The names of the files whose output was written by a batch run,
in processing order. -/
def outputs_written (delete_original : Bool) (order : List (String × FileEnv)) :
    List String :=
  (order.filter (fun f => fileOutputWritten delete_original f.2)).map Prod.fst

/-- The state of the input directory argument, as the validation code
observes it. -/
structure DirState where
  present : Bool
  isDir : Bool
  entries : List String

/-- Embedding of the format table (heic.py lines 29-34). -/
def format_extensions : String → Option String
  | "JPG" => some ".jpg"
  | "JPEG" => some ".jpg"
  | "PNG" => some ".png"
  | "WEBP" => some ".webp"
  | _ => none

/-- The observable outcome of one `convert_heic_images` invocation. -/
inductive HeicOutcome where
  | errDirMissing
  | errNotDir
  | errBadFormat
  | noFiles
  | done (converted failed : ℕ)
deriving DecidableEq, Repr

/-- Embedding of `convert_heic_images` (heic.py lines 9-91): validation
(directory exists, is a directory, format recognized), discovery, then
the per-file loop.  Every early-error path in the source prints a
message and plainly returns. -/
def convert_heic_images (dir : DirState) (output_format : String)
    (delete_original : Bool) (envs : String → FileEnv) : HeicOutcome :=
  if !dir.present then .errDirMissing
  else if !dir.isDir then .errNotDir
  else if (format_extensions output_format.toUpper).isNone then .errBadFormat
  else
    let files := heic_files dir.entries
    if files = [] then .noFiles
    else
      let counts := run_batch delete_original (files.map (fun f => (f, envs f)))
      .done counts.1 counts.2

/-- The argparse `choices` list of the format option `-f, --format`
(heic.py line 98). -/
def format_choices : List String := ["JPEG", "JPG", "PNG", "WEBP"]

/-- Embedding of `main` (heic.py lines 94-112).  Argument parsing comes
first: argparse validates `--format` against its `choices` and
terminates the process with exit status 2 on an unrecognized value,
before `convert_heic_images` ever runs (modelled as outcome `none`).
On accepted arguments `main` calls `convert_heic_images` and returns;
no path after parsing calls `sys.exit` and `convert_heic_images`
returns normally on every validation failure, so the interpreter then
terminates with exit status 0. -/
def heic_main (dir : DirState) (output_format : String)
    (delete_original : Bool) (envs : String → FileEnv) :
    Option HeicOutcome × ℕ :=
  if output_format ∈ format_choices then
    (some (convert_heic_images dir output_format delete_original envs), 0)
  else
    (none, 2)

end Heic

namespace PdfCopy

/-! ## Page Replicator (`src/python/image/pdf-copy/duplicate-page.py`) -/

/-- Embedding of `repeat_page` (duplicate-page.py lines 4-17).  The
input document is its list of pages; page numbers and copy counts are
Python integers.  An out-of-range page number raises `ValueError`
before any output is produced (modelled as `Except.error`); otherwise
`range(n_copies)` appends the selected page `n_copies` times (zero
times when `n_copies <= 0`) and the result is written. -/
def repeat_page {α : Type} (pages : List α) (page_num n_copies : ℤ) :
    Except String (List α) :=
  if h : page_num < 1 ∨ page_num > (pages.length : ℤ) then
    Except.error "Page number out of range."
  else
    Except.ok
      (List.replicate n_copies.toNat
        (pages.get ⟨(page_num - 1).toNat, by omega⟩))

/-- Embedding of the script's top level (duplicate-page.py lines
19-27): `repeat_page` is called with no surrounding handler, so a
raised `ValueError` terminates the interpreter with exit status 1,
and a normal return exits with 0. -/
def duplicate_main_exit {α : Type} (pages : List α) (page_num n_copies : ℤ) : ℕ :=
  match repeat_page pages page_num n_copies with
  | .error _ => 1
  | .ok _ => 0

end PdfCopy

namespace Layout

/-! ## Layout Composer (`src/python/image/layout_gen/layout.py`) -/

/-- Truncation toward zero, the behaviour of Python's `int()` applied
to a (here exactly represented) float. -/
def pytrunc (q : ℚ) : ℤ :=
  if 0 ≤ q then ⌊q⌋ else ⌈q⌉

/-- A PIL crop box `(left, upper, right, lower)` in pixel
coordinates. -/
structure Box where
  left : ℤ
  upper : ℤ
  right : ℤ
  lower : ℤ
deriving DecidableEq, Repr

/-- Width of the image described by a crop box. -/
def Box.width (b : Box) : ℤ := b.right - b.left

/-- Height of the image described by a crop box. -/
def Box.height (b : Box) : ℤ := b.lower - b.upper

/-- Embedding of `crop_to_aspect` (layout.py lines 33-58) on an image
of the given pixel dimensions.  Float arithmetic is modelled exactly
over `ℚ`; `int(...)` is truncation toward zero and `//` is Python's
floor division.  The result is the crop box actually applied
(`img.crop((left, 0, left + new_width, height))`, or
`(0, top, width, top + new_height)`), with the whole image as the box
when no branch fires (the image is returned unchanged). -/
def crop_to_aspect (width height : ℕ) (target_ratio : ℚ) : Box :=
  let current_ratio : ℚ := (width : ℚ) / (height : ℚ)
  if current_ratio > target_ratio then
    let new_width : ℤ := pytrunc ((height : ℚ) * target_ratio)
    let left : ℤ := Int.fdiv ((width : ℤ) - new_width) 2
    ⟨left, 0, left + new_width, (height : ℤ)⟩
  else if current_ratio < target_ratio then
    let new_height : ℤ := pytrunc ((width : ℚ) / target_ratio)
    let top : ℤ := Int.fdiv ((height : ℤ) - new_height) 2
    ⟨0, top, (width : ℤ), top + new_height⟩
  else
    ⟨0, 0, (width : ℤ), (height : ℤ)⟩

/-- Embedding of `paginate_images` (layout.py lines 120-124):
`range(0, len(images), per_page)` slices the list into consecutive
chunks of `per_page` items (the guard for `per_page = 0`, where the
Python `range` raises, returns no pages and is outside every use:
callers pass `rows * cols ≥ 1`). -/
def paginate_images {α : Type} (images : List α) (per_page : ℕ) :
    List (List α) :=
  match images, per_page with
  | _, 0 => []
  | [], _ => []
  | a :: l, per + 1 =>
    ((a :: l).take (per + 1)) :: paginate_images ((a :: l).drop (per + 1)) (per + 1)
termination_by images.length
decreasing_by
  simp only [List.drop_succ_cons, List.length_drop, List.length_cons]
  omega

/-- Embedding of the in-page placement (layout.py lines 181-182):
`row = idx // cols; col = idx % cols`. -/
def grid_position (idx cols : ℕ) : ℕ × ℕ := (idx / cols, idx % cols)

/-- The placements computed for one page: each image of the page chunk
paired with its (row, col) cell. -/
def page_placements (page : List String) (cols : ℕ) :
    List (String × ℕ × ℕ) :=
  page.enum.map (fun p => (p.2, grid_position p.1 cols))

/-- Embedding of the `PAGE_SIZES` table (layout.py lines 27-31) with
reportlab's point dimensions: LETTER = 8.5in × 11in, A4 = 210mm ×
297mm, LEGAL = 8.5in × 14in, at 72 points per inch and 25.4 mm per
inch. -/
def PAGE_SIZES : String → Option (ℚ × ℚ)
  | "letter" => some (612, 792)
  | "A4" => some (75600 / 127, 106920 / 127)
  | "legal" => some (612, 1008)
  | _ => none

/-- Embedding of the footprint formula (layout.py line 158):
`total_width = cols * box_width + (cols + 1) * margin`. -/
def total_grid_width (cols : ℕ) (box_width margin : ℚ) : ℚ :=
  (cols : ℚ) * box_width + ((cols : ℚ) + 1) * margin

/-- Embedding of the footprint formula (layout.py line 159):
`total_height = rows * box_height + (rows + 1) * margin`. -/
def total_grid_height (rows : ℕ) (box_height margin : ℚ) : ℚ :=
  (rows : ℚ) * box_height + ((rows : ℚ) + 1) * margin

/-- The observable outcome of one `create_photo_layout` invocation:
an invalid page size raises; an empty directory returns with no
document; otherwise a document of placed pages is produced, and
`warned` records whether the footprint warning was printed. -/
inductive LayoutResult where
  | invalidPageSize
  | noImages
  | done (warned : Bool) (pages : List (List (String × ℕ × ℕ)))
deriving DecidableEq, Repr

/-- Embedding of `create_photo_layout` (layout.py lines 139-227):
page-size validation, footprint check (warning only), discovery
(given here as the already-sorted image list), pagination, and
row-major placement.  Inch dimensions are converted to points by
`* 72` (`reportlab.lib.units.inch`).  The warning does not alter the
produced pages. -/
def create_photo_layout (img_width_in img_height_in margin_in : ℚ)
    (page_size : String) (cols rows : ℕ) (images : List String) :
    LayoutResult :=
  match PAGE_SIZES page_size with
  | none => .invalidPageSize
  | some (page_width, page_height) =>
    let box_width := img_width_in * 72
    let box_height := img_height_in * 72
    let margin := margin_in * 72
    let warned :=
      decide (total_grid_width cols box_width margin > page_width) ||
        decide (total_grid_height rows box_height margin > page_height)
    if images = [] then .noImages
    else
      .done warned
        ((paginate_images images (rows * cols)).map
          (fun pg => page_placements pg cols))

/-- Embedding of `main` (layout.py lines 230-261): `KeyboardInterrupt`
and any exception raised by `create_photo_layout` (the invalid
page-size `ValueError`) are caught and turned into `sys.exit(1)`;
otherwise the interpreter exits with status 0. -/
def layout_main_exit (r : LayoutResult) (interrupted : Bool) : ℕ :=
  if interrupted then 1
  else
    match r with
    | .invalidPageSize => 1
    | _ => 0

end Layout

namespace Layout

/-- Pixels removed at the left edge by the crop. -/
def trimLeft (w h : ℕ) (t : ℚ) : ℤ := (crop_to_aspect w h t).left

/-- Pixels removed at the right edge by the crop. -/
def trimRight (w h : ℕ) (t : ℚ) : ℤ := (w : ℤ) - (crop_to_aspect w h t).right

/-- Pixels removed at the top edge by the crop. -/
def trimTop (w h : ℕ) (t : ℚ) : ℤ := (crop_to_aspect w h t).upper

/-- Pixels removed at the bottom edge by the crop. -/
def trimBottom (w h : ℕ) (t : ℚ) : ℤ := (h : ℤ) - (crop_to_aspect w h t).lower

end Layout

/-! ## Helper lemmas -/

theorem run_batch_counts (d : Bool) (l : List (String × Heic.FileEnv)) :
    Heic.run_batch d l =
      (l.countP (fun f => Heic.fileSucceeds d f.2),
        l.countP (fun f => ! Heic.fileSucceeds d f.2)) := by
  have haux : ∀ (l : List (String × Heic.FileEnv)) (acc : ℕ × ℕ),
      l.foldl
        (fun acc f =>
          if Heic.fileSucceeds d f.2 then (acc.1 + 1, acc.2)
          else (acc.1, acc.2 + 1)) acc =
      (acc.1 + l.countP (fun f => Heic.fileSucceeds d f.2),
        acc.2 + l.countP (fun f => ! Heic.fileSucceeds d f.2)) := by
    intro l
    induction l with
    | nil => intro acc; simp [List.countP_nil]
    | cons x xs ih =>
      intro acc
      rw [List.foldl_cons, ih, List.countP_cons, List.countP_cons]
      rcases hx : Heic.fileSucceeds d x.2 with _ | _ <;>
        simp [hx] <;> omega
  rw [Heic.run_batch, haux]
  simp

theorem paginate_images_nil {α : Type} (per : ℕ) :
    Layout.paginate_images ([] : List α) per = [] := by
  cases per with
  | zero => rw [Layout.paginate_images]
  | succ p =>
    rw [Layout.paginate_images]
    omega

theorem paginate_images_length {α : Type} (l : List α) (per : ℕ) (h : per ≠ 0) :
    (Layout.paginate_images l per).length = (l.length + per - 1) / per := by
  induction l, per using Layout.paginate_images.induct with
  | case1 l => exact absurd rfl h
  | case2 per =>
    rw [Layout.paginate_images]
    · simp only [List.length_nil, Nat.zero_add]
      rw [Nat.div_eq_of_lt (by omega)]
    · exact h
  | case3 a l per ih =>
    rw [Layout.paginate_images]
    rw [List.length_cons, ih (by omega), List.length_drop, List.length_cons]
    rw [show l.length + 1 + (per + 1) - 1 = l.length + (per + 1) by omega,
        Nat.add_div_right _ (by omega)]
    rcases Nat.lt_or_ge l.length (per + 1) with hc | hc
    · rw [show l.length + 1 - (per + 1) + (per + 1) - 1 = per by omega,
          Nat.div_eq_of_lt (show per < per + 1 by omega),
          Nat.div_eq_of_lt hc]
    · rw [show l.length + 1 - (per + 1) + (per + 1) - 1 =
            l.length - (per + 1) + (per + 1) by omega,
          Nat.add_div_right _ (by omega)]
      rw [Nat.div_eq_sub_div (show 0 < per + 1 by omega) hc]

theorem paginate_images_flatten {α : Type} (l : List α) (per : ℕ) (h : per ≠ 0) :
    (Layout.paginate_images l per).flatten = l := by
  induction l, per using Layout.paginate_images.induct with
  | case1 l => exact absurd rfl h
  | case2 per =>
    rw [Layout.paginate_images]
    · rfl
    · exact h
  | case3 a l per ih =>
    rw [Layout.paginate_images, List.flatten_cons, ih (by omega),
      List.take_append_drop]

theorem paginate_images_ne_nil {α : Type} (a : α) (l : List α) (per : ℕ)
    (h : per ≠ 0) : Layout.paginate_images (a :: l) per ≠ [] := by
  cases per with
  | zero => exact absurd rfl h
  | succ per =>
    rw [Layout.paginate_images]
    exact List.cons_ne_nil _ _

theorem paginate_images_last_length {α : Type} (l : List α) (per : ℕ)
    (h : per ≠ 0) :
    ∀ lastPage, (Layout.paginate_images l per).getLast? = some lastPage →
      lastPage.length = if l.length % per = 0 then per else l.length % per := by
  induction l, per using Layout.paginate_images.induct with
  | case1 l => exact absurd rfl h
  | case2 per =>
    intro lp hlp
    rw [Layout.paginate_images] at hlp
    · exact absurd hlp (by simp)
    · exact h
  | case3 a l per ih =>
    intro lp hlp
    rw [Layout.paginate_images] at hlp
    rcases hd : (a :: l).drop (per + 1) with _ | ⟨b, t⟩
    · have hpag : Layout.paginate_images ((a :: l).drop (per + 1)) (per + 1) = [] := by
        rw [hd, paginate_images_nil]
      rw [hpag, List.getLast?_singleton] at hlp
      have hlen : l.length < per + 1 := by
        have hl := congrArg List.length hd
        simp only [List.length_drop, List.length_cons, List.length_nil] at hl
        omega
      have hlp2 : lp = (a :: l).take (per + 1) := (Option.some.inj hlp).symm
      subst hlp2
      rw [List.length_take]
      have hmin : min (per + 1) (a :: l).length = (a :: l).length := by
        simp only [List.length_cons]
        omega
      rw [hmin]
      simp only [List.length_cons]
      rcases Nat.lt_or_ge (l.length + 1) (per + 1) with h2 | h2
      · rw [Nat.mod_eq_of_lt h2, if_neg (by omega)]
      · have he : l.length + 1 = per + 1 := by omega
        rw [he, Nat.mod_self, if_pos rfl]
    · have hne : Layout.paginate_images ((a :: l).drop (per + 1)) (per + 1) ≠ [] := by
        rw [hd]
        exact paginate_images_ne_nil b t (per + 1) (by omega)
      obtain ⟨c, cs, hcc⟩ := List.exists_cons_of_ne_nil hne
      rw [hcc, List.getLast?_cons_cons] at hlp
      have hrec := ih (by omega) lp (by rw [hcc]; exact hlp)
      have hlen2 : per + 1 ≤ l.length := by
        have hl := congrArg List.length hd
        simp only [List.length_drop, List.length_cons] at hl
        omega
      rw [List.length_drop] at hrec
      simp only [List.length_cons] at hrec ⊢
      have hmod : (l.length + 1 - (per + 1)) % (per + 1) = (l.length + 1) % (per + 1) := by
        conv_rhs => rw [show l.length + 1 = l.length + 1 - (per + 1) + (per + 1) by omega]
        rw [Nat.add_mod_right]
      rw [hmod] at hrec
      exact hrec

theorem crop_box_wider (w h : ℕ) (t : ℚ) (ht : 0 ≤ t)
    (hgt : (w : ℚ) / (h : ℚ) > t) :
    Layout.crop_to_aspect w h t =
      ⟨((w : ℤ) - ⌊(h : ℚ) * t⌋).fdiv 2, 0,
        ((w : ℤ) - ⌊(h : ℚ) * t⌋).fdiv 2 + ⌊(h : ℚ) * t⌋, (h : ℤ)⟩ := by
  simp only [Layout.crop_to_aspect, Layout.pytrunc]
  rw [if_pos hgt, if_pos (by positivity : (0 : ℚ) ≤ (h : ℚ) * t)]

theorem crop_box_taller (w h : ℕ) (t : ℚ) (ht : 0 < t)
    (hlt : (w : ℚ) / (h : ℚ) < t) :
    Layout.crop_to_aspect w h t =
      ⟨0, ((h : ℤ) - ⌊(w : ℚ) / t⌋).fdiv 2, (w : ℤ),
        ((h : ℤ) - ⌊(w : ℚ) / t⌋).fdiv 2 + ⌊(w : ℚ) / t⌋⟩ := by
  simp only [Layout.crop_to_aspect, Layout.pytrunc]
  rw [if_neg (by push_neg; linarith), if_pos hlt,
    if_pos (by positivity : (0 : ℚ) ≤ (w : ℚ) / t)]

theorem crop_box_same (w h : ℕ) (t : ℚ) (heq : (w : ℚ) / (h : ℚ) = t) :
    Layout.crop_to_aspect w h t = ⟨0, 0, (w : ℤ), (h : ℤ)⟩ := by
  simp only [Layout.crop_to_aspect, Layout.pytrunc]
  rw [if_neg (by rw [heq]; exact lt_irrefl t),
    if_neg (by rw [heq]; exact lt_irrefl t)]

theorem crop_floor_lt_width (w h : ℕ) (t : ℚ) (hh : 0 < h)
    (hgt : (w : ℚ) / (h : ℚ) > t) : ⌊(h : ℚ) * t⌋ < (w : ℤ) := by
  rw [Int.floor_lt]
  push_cast
  rw [mul_comm]
  exact (lt_div_iff₀ (by positivity : (0 : ℚ) < (h : ℚ))).1 hgt

theorem crop_floor_lt_height (w h : ℕ) (t : ℚ) (hh : 0 < h) (ht : 0 < t)
    (hlt : (w : ℚ) / (h : ℚ) < t) : ⌊(w : ℚ) / t⌋ < (h : ℤ) := by
  rw [Int.floor_lt]
  push_cast
  rw [div_lt_iff₀ ht, mul_comm]
  exact (div_lt_iff₀ (by positivity : (0 : ℚ) < (h : ℚ))).1 hlt

/-! ## Claim theorems -/

/-- C1: with delete-original set, the source file is removed only when
the converted output was written (and exactly then, whenever the delete
itself succeeds); a conversion that fails to decode or to write never
deletes its source and is reported as a failure; an error raised by the
delete itself is reported through the per-file failure channel while
the already-written output stays in place. -/
theorem heic_delete_original_iff_write (env : Heic.FileEnv) :
    ((Heic.convert_one true env ⟨true, false⟩).2.sourceExists = false →
      (Heic.convert_one true env ⟨true, false⟩).2.outputExists = true)
    ∧ (env.unlinkOk = true →
      ((Heic.convert_one true env ⟨true, false⟩).2.sourceExists = false ↔
        (Heic.convert_one true env ⟨true, false⟩).2.outputExists = true))
    ∧ ((env.decodeOk = false ∨ env.saveOk = false) →
      (Heic.convert_one true env ⟨true, false⟩).1 = false ∧
      (Heic.convert_one true env ⟨true, false⟩).2.sourceExists = true ∧
      (Heic.convert_one true env ⟨true, false⟩).2.outputExists = false)
    ∧ (env.decodeOk = true → env.saveOk = true → env.unlinkOk = false →
      (Heic.convert_one true env ⟨true, false⟩).1 = false ∧
      (Heic.convert_one true env ⟨true, false⟩).2.outputExists = true ∧
      (Heic.convert_one true env ⟨true, false⟩).2.sourceExists = true) := by
  rcases env with ⟨d, s, u⟩
  cases d <;> cases s <;> cases u <;> decide

/-- Witness for `heic_delete_original_iff_write` at a concrete file
environment whose delete step fails. -/
theorem heic_delete_original_iff_write_witness :
    (Heic.convert_one true ⟨true, true, false⟩ ⟨true, false⟩).1 = false ∧
    (Heic.convert_one true ⟨true, true, false⟩ ⟨true, false⟩).2.outputExists = true ∧
    (Heic.convert_one true ⟨true, true, false⟩ ⟨true, false⟩).2.sourceExists = true :=
  (heic_delete_original_iff_write ⟨true, true, false⟩).2.2.2 rfl rfl rfl

/-- C2 counterexample: the file `photo.Heic` has extension `heic` under
case-insensitive comparison, yet the converter's discovery step does
not include it (the source only globs `*.heic` and `*.HEIC`). -/
theorem heic_mixed_case_not_discovered :
    Heic.extMatchesHeicInsensitive "photo.Heic" = true ∧
    "photo.Heic" ∉ Heic.heic_files ["photo.Heic"] :=
  ⟨by decide, by decide⟩

/-- C2 amended: the Format Converter discovers exactly the files of the
input directory whose name ends in `.heic` or `.HEIC` literally;
mixed-case extensions are missed. -/
theorem heic_discovery_exact_extensions (dir : List String) (name : String) :
    name ∈ Heic.heic_files dir ↔
      name ∈ dir ∧
        (endsWithExt ".heic" name = true ∨ endsWithExt ".HEIC" name = true) := by
  simp only [Heic.heic_files, List.mem_append, List.mem_filter]
  tauto

/-- C6: processing the same files in any other order (the parallel
mode's `as_completed` order is some permutation of the sequential
order) yields the identical success/failure tally and the identical
collection of written output files. -/
theorem converter_parallel_seq_equiv (d : Bool)
    (seqOrder parOrder : List (String × Heic.FileEnv))
    (h : seqOrder.Perm parOrder) :
    Heic.run_batch d seqOrder = Heic.run_batch d parOrder ∧
    (Heic.outputs_written d seqOrder).Perm (Heic.outputs_written d parOrder) := by
  constructor
  · rw [run_batch_counts, run_batch_counts, h.countP_eq, h.countP_eq]
  · exact (h.filter _).map _

/-- Witness for `converter_parallel_seq_equiv` on a two-file batch
processed in the two possible orders. -/
theorem converter_parallel_seq_equiv_witness :
    Heic.run_batch true
        [("a.heic", ⟨true, true, true⟩), ("b.heic", ⟨false, true, true⟩)] =
      Heic.run_batch true
        [("b.heic", ⟨false, true, true⟩), ("a.heic", ⟨true, true, true⟩)] ∧
    (Heic.outputs_written true
        [("a.heic", ⟨true, true, true⟩), ("b.heic", ⟨false, true, true⟩)]).Perm
      (Heic.outputs_written true
        [("b.heic", ⟨false, true, true⟩), ("a.heic", ⟨true, true, true⟩)]) :=
  converter_parallel_seq_equiv true _ _ (List.Perm.swap _ _ _)

/-- C7 counterexample: invoking the Format Converter on a non-existent
directory is a fatal validation condition, yet the process terminates
with exit status 0 (the source prints the error and returns). -/
theorem converter_bad_dir_exit_zero :
    Heic.heic_main ⟨false, false, []⟩ "JPEG" false (fun _ => ⟨true, true, true⟩) =
      (some Heic.HeicOutcome.errDirMissing, 0) := by decide

/-- C7 amended: fatal conditions in the Layout Composer (unrecognized
page size, interruption) and in the Page Replicator (out-of-range page
index) terminate with a non-zero exit status, and the Format
Converter's unrecognized-format invocations are rejected by argparse
with the non-zero exit status 2; the Format Converter's directory
validation failures (non-existent or non-directory input), however,
print an error and return, and its process exits with status 0. -/
theorem fatal_exit_codes {α : Type}
    (r : Layout.LayoutResult) (pages : List α) (p n : ℤ)
    (img_w img_h m : ℚ) (ps : String) (cols rows : ℕ) (images : List String)
    (dir : Heic.DirState) (fmt : String) (del : Bool)
    (envs : String → Heic.FileEnv) :
    (Layout.PAGE_SIZES ps = none →
      Layout.layout_main_exit
        (Layout.create_photo_layout img_w img_h m ps cols rows images) false = 1)
    ∧ Layout.layout_main_exit r true = 1
    ∧ (p < 1 ∨ p > (pages.length : ℤ) →
        PdfCopy.duplicate_main_exit pages p n = 1)
    ∧ (fmt ∉ Heic.format_choices →
        Heic.heic_main dir fmt del envs = (none, 2))
    ∧ (fmt ∈ Heic.format_choices →
        (Heic.heic_main dir fmt del envs).2 = 0)
    ∧ (fmt ∈ Heic.format_choices → dir.present = false →
        (Heic.heic_main dir fmt del envs).1 = some Heic.HeicOutcome.errDirMissing) := by
  refine ⟨fun hps => ?_, rfl, fun hp => ?_, fun hbad => ?_, fun hok => ?_,
    fun hok hdir => ?_⟩
  · unfold Layout.create_photo_layout
    rw [hps]
    rfl
  · unfold PdfCopy.duplicate_main_exit PdfCopy.repeat_page
    rw [dif_pos hp]
  · unfold Heic.heic_main
    rw [if_neg hbad]
  · unfold Heic.heic_main
    rw [if_pos hok]
  · unfold Heic.heic_main
    rw [if_pos hok]
    simp [Heic.convert_heic_images, hdir]

/-- Witness for `fatal_exit_codes` at concrete fatal inputs for each
tool, including an argparse-rejected format and an accepted format on
a missing directory. -/
theorem fatal_exit_codes_witness :
    Layout.layout_main_exit
        (Layout.create_photo_layout 4 3 (1 / 8) "postcard" 2 3 ["a.jpg"]) false = 1 ∧
    PdfCopy.duplicate_main_exit ([0] : List ℕ) 5 2 = 1 ∧
    Heic.heic_main ⟨false, true, ["x.heic"]⟩ "BMP" true
        (fun _ => ⟨true, true, true⟩) = (none, 2) ∧
    (Heic.heic_main ⟨false, true, ["x.heic"]⟩ "PNG" true
        (fun _ => ⟨true, true, true⟩)).2 = 0 ∧
    (Heic.heic_main ⟨false, true, ["x.heic"]⟩ "PNG" true
        (fun _ => ⟨true, true, true⟩)).1 = some Heic.HeicOutcome.errDirMissing := by
  obtain ⟨h1, _, h3, _, h5, h6⟩ :=
    fatal_exit_codes Layout.LayoutResult.noImages ([0] : List ℕ) 5 2
      4 3 (1 / 8) "postcard" 2 3 ["a.jpg"] ⟨false, true, ["x.heic"]⟩ "PNG" true
      (fun _ => ⟨true, true, true⟩)
  obtain ⟨_, _, _, h4, _, _⟩ :=
    fatal_exit_codes Layout.LayoutResult.noImages ([0] : List ℕ) 5 2
      4 3 (1 / 8) "postcard" 2 3 ["a.jpg"] ⟨false, true, ["x.heic"]⟩ "BMP" true
      (fun _ => ⟨true, true, true⟩)
  exact ⟨h1 rfl, h3 (by decide), h4 (by decide), h5 (by decide), h6 (by decide) rfl⟩

/-- C3: an out-of-range page number (below 1 or above the page count)
makes `repeat_page` fail with a range error before writing anything;
a valid page number with a nonnegative copy count `n` produces an
output document that is exactly `n` copies of the selected page and
nothing else. -/
theorem repeat_page_range_and_copies {α : Type} (pages : List α) (p n : ℤ) :
    (p < 1 ∨ p > (pages.length : ℤ) →
      ∃ msg, PdfCopy.repeat_page pages p n = Except.error msg)
    ∧ (1 ≤ p → p ≤ (pages.length : ℤ) → 0 ≤ n →
      ∃ pg, pages[(p - 1).toNat]? = some pg ∧
        PdfCopy.repeat_page pages p n = Except.ok (List.replicate n.toNat pg) ∧
        ((List.replicate n.toNat pg).length : ℤ) = n) := by
  constructor
  · intro h
    refine ⟨"Page number out of range.", ?_⟩
    unfold PdfCopy.repeat_page
    rw [dif_pos h]
  · intro h1 h2 h3
    have hlt : (p - 1).toNat < pages.length := by omega
    refine ⟨pages.get ⟨(p - 1).toNat, hlt⟩, ?_, ?_, ?_⟩
    · rw [List.getElem?_eq_getElem hlt]
      rw [List.get_eq_getElem]
    · unfold PdfCopy.repeat_page
      rw [dif_neg (by omega)]
    · rw [List.length_replicate]
      omega

/-- Witness for `repeat_page_range_and_copies` on a three-page
document: page 0 is rejected, and three copies of page 2 are
produced. -/
theorem repeat_page_range_and_copies_witness :
    (∃ msg, PdfCopy.repeat_page ([10, 20, 30] : List ℕ) 0 3 = Except.error msg) ∧
    (∃ pg, ([10, 20, 30] : List ℕ)[((2 : ℤ) - 1).toNat]? = some pg ∧
      PdfCopy.repeat_page ([10, 20, 30] : List ℕ) 2 3 =
        Except.ok (List.replicate (3 : ℤ).toNat pg) ∧
      ((List.replicate (3 : ℤ).toNat pg).length : ℤ) = 3) :=
  ⟨(repeat_page_range_and_copies ([10, 20, 30] : List ℕ) 0 3).1 (by decide),
    (repeat_page_range_and_copies ([10, 20, 30] : List ℕ) 2 3).2
      (by decide) (by decide) (by decide)⟩

/-- C10: `repeat_page` never validates the copy count: with a valid
page number and any copy count `n ≤ 0`, it raises no error and writes
a document with zero pages (`range(n)` is empty). -/
theorem repeat_page_nonpositive_copies {α : Type} (pages : List α) (p n : ℤ)
    (h1 : 1 ≤ p) (h2 : p ≤ (pages.length : ℤ)) (h3 : n ≤ 0) :
    PdfCopy.repeat_page pages p n = Except.ok [] := by
  unfold PdfCopy.repeat_page
  rw [dif_neg (by omega)]
  rw [show n.toNat = 0 by omega]
  rfl

/-- Witness for `repeat_page_nonpositive_copies`: negative three copies
of the only page of a one-page document yield an empty document. -/
theorem repeat_page_nonpositive_copies_witness :
    PdfCopy.repeat_page ([7] : List ℕ) 1 (-3) = Except.ok [] :=
  repeat_page_nonpositive_copies ([7] : List ℕ) 1 (-3)
    (by decide) (by decide) (by decide)

/-- C4: for a non-empty image list and a rows×cols grid, pagination
produces ceil(N / (rows*cols)) pages (as the standard integral ceiling
expression), keeps the images in their given sorted order with nothing
added or dropped, the last page holds N mod (rows*cols) images (a full
grid on an exact multiple), and within a page index i is placed at row
i / cols, column i % cols. -/
theorem layout_pagination_row_major (images : List String) (rows cols : ℕ)
    (_h1 : images ≠ []) (h2 : 1 ≤ rows) (h3 : 1 ≤ cols) :
    (Layout.paginate_images images (rows * cols)).length =
      (images.length + rows * cols - 1) / (rows * cols)
    ∧ (Layout.paginate_images images (rows * cols)).flatten = images
    ∧ (∀ lastPage,
        (Layout.paginate_images images (rows * cols)).getLast? = some lastPage →
        lastPage.length =
          if images.length % (rows * cols) = 0 then rows * cols
          else images.length % (rows * cols))
    ∧ (∀ idx, Layout.grid_position idx cols = (idx / cols, idx % cols)) := by
  have hper : rows * cols ≠ 0 := Nat.mul_ne_zero (by omega) (by omega)
  exact ⟨paginate_images_length images _ hper,
    paginate_images_flatten images _ hper,
    paginate_images_last_length images _ hper,
    fun idx => rfl⟩

/-- Witness for `layout_pagination_row_major` on three images in a 1×2
grid: two pages, the last with one image. -/
theorem layout_pagination_row_major_witness :
    (Layout.paginate_images ["a.jpg", "b.jpg", "c.jpg"] (1 * 2)).length =
      (["a.jpg", "b.jpg", "c.jpg"].length + 1 * 2 - 1) / (1 * 2)
    ∧ (Layout.paginate_images ["a.jpg", "b.jpg", "c.jpg"] (1 * 2)).flatten =
      ["a.jpg", "b.jpg", "c.jpg"]
    ∧ (∀ lastPage,
        (Layout.paginate_images ["a.jpg", "b.jpg", "c.jpg"] (1 * 2)).getLast? =
          some lastPage →
        lastPage.length =
          if ["a.jpg", "b.jpg", "c.jpg"].length % (1 * 2) = 0 then 1 * 2
          else ["a.jpg", "b.jpg", "c.jpg"].length % (1 * 2))
    ∧ (∀ idx, Layout.grid_position idx 2 = (idx / 2, idx % 2)) :=
  layout_pagination_row_major ["a.jpg", "b.jpg", "c.jpg"] 1 2
    (by decide) (by decide) (by decide)

/-- C5 counterexample: a 5×1 image cropped to target ratio 2 is wider
than the target, and the crop removes 1 pixel from the left but 2 from
the right — not equal amounts, refuting the claim's "equally". -/
theorem crop_unequal_trim_counterexample :
    ((5 : ℕ) : ℚ) / ((1 : ℕ) : ℚ) > 2 ∧
    Layout.trimLeft 5 1 2 = 1 ∧ Layout.trimRight 5 1 2 = 2 ∧
    Layout.trimLeft 5 1 2 ≠ Layout.trimRight 5 1 2 := by
  have hgt : ((5 : ℕ) : ℚ) / ((1 : ℕ) : ℚ) > 2 := by norm_num
  have hbox := crop_box_wider 5 1 2 (by norm_num) hgt
  have h1 : (⌊((1 : ℕ) : ℚ) * 2⌋ : ℤ) = 2 := by norm_num
  rw [h1] at hbox
  have h2 : (((5 : ℕ) : ℤ) - 2) = 3 := by norm_num
  rw [h2] at hbox
  have h3 : (3 : ℤ).fdiv 2 = 1 := by decide
  rw [h3] at hbox
  refine ⟨hgt, ?_, ?_, ?_⟩
  · rw [Layout.trimLeft, hbox]
  · rw [Layout.trimRight, hbox]
    norm_num
  · rw [Layout.trimLeft, Layout.trimRight, hbox]
    norm_num

/-- C5 amended: an image wider than the target ratio loses pixels from
the left and right only, in amounts equal up to one pixel (the right
side receives the extra pixel when the excess is odd); an image taller
than the target ratio loses pixels from the top and bottom only, again
equal up to one pixel; an image already at the target ratio is
unchanged; the crop never trims both dimensions. -/
theorem crop_symmetric_axis_only (w h : ℕ) (t : ℚ) (hh : 0 < h) (ht : 0 < t) :
    ((w : ℚ) / (h : ℚ) > t →
      Layout.trimTop w h t = 0 ∧ Layout.trimBottom w h t = 0 ∧
        0 ≤ Layout.trimLeft w h t ∧
        (Layout.trimRight w h t = Layout.trimLeft w h t ∨
          Layout.trimRight w h t = Layout.trimLeft w h t + 1))
    ∧ ((w : ℚ) / (h : ℚ) < t →
      Layout.trimLeft w h t = 0 ∧ Layout.trimRight w h t = 0 ∧
        0 ≤ Layout.trimTop w h t ∧
        (Layout.trimBottom w h t = Layout.trimTop w h t ∨
          Layout.trimBottom w h t = Layout.trimTop w h t + 1))
    ∧ ((w : ℚ) / (h : ℚ) = t →
      Layout.crop_to_aspect w h t = ⟨0, 0, (w : ℤ), (h : ℤ)⟩) := by
  refine ⟨fun hgt => ?_, fun hlt => ?_, fun heq => crop_box_same w h t heq⟩
  · have hbox := crop_box_wider w h t (le_of_lt ht) hgt
    have hub := crop_floor_lt_width w h t hh hgt
    have hlb : (0 : ℤ) ≤ ⌊(h : ℚ) * t⌋ := Int.floor_nonneg.2 (by positivity)
    have hfd : ((w : ℤ) - ⌊(h : ℚ) * t⌋).fdiv 2 = ((w : ℤ) - ⌊(h : ℚ) * t⌋) / 2 :=
      Int.fdiv_eq_ediv _ (by omega)
    simp only [Layout.trimTop, Layout.trimBottom, Layout.trimLeft,
      Layout.trimRight, hbox, hfd, true_and]
    omega
  · have hbox := crop_box_taller w h t ht hlt
    have hub := crop_floor_lt_height w h t hh ht hlt
    have hlb : (0 : ℤ) ≤ ⌊(w : ℚ) / t⌋ := Int.floor_nonneg.2 (by positivity)
    have hfd : ((h : ℤ) - ⌊(w : ℚ) / t⌋).fdiv 2 = ((h : ℤ) - ⌊(w : ℚ) / t⌋) / 2 :=
      Int.fdiv_eq_ediv _ (by omega)
    simp only [Layout.trimTop, Layout.trimBottom, Layout.trimLeft,
      Layout.trimRight, hbox, hfd, true_and]
    omega

/-- Witness for `crop_symmetric_axis_only` on a 4×1 image with target
ratio 2 (wider than target). -/
theorem crop_symmetric_axis_only_witness :
    Layout.trimTop 4 1 2 = 0 ∧ Layout.trimBottom 4 1 2 = 0 ∧
    0 ≤ Layout.trimLeft 4 1 2 ∧
    (Layout.trimRight 4 1 2 = Layout.trimLeft 4 1 2 ∨
      Layout.trimRight 4 1 2 = Layout.trimLeft 4 1 2 + 1) :=
  (crop_symmetric_axis_only 4 1 2 (by norm_num) (by norm_num)).1 (by norm_num)

/-- C9: the crop step never enlarges the image — the resulting width
and height are at most the input's — and at most one of the two
dimensions is reduced. -/
theorem crop_never_enlarges (w h : ℕ) (t : ℚ) (hh : 0 < h) (ht : 0 < t) :
    (Layout.crop_to_aspect w h t).width ≤ (w : ℤ)
    ∧ (Layout.crop_to_aspect w h t).height ≤ (h : ℤ)
    ∧ ((Layout.crop_to_aspect w h t).width = (w : ℤ) ∨
        (Layout.crop_to_aspect w h t).height = (h : ℤ)) := by
  rcases lt_trichotomy ((w : ℚ) / (h : ℚ)) t with hc | hc | hc
  · have hbox := crop_box_taller w h t ht hc
    have hub := crop_floor_lt_height w h t hh ht hc
    simp only [Layout.Box.width, Layout.Box.height, hbox]
    omega
  · have hbox := crop_box_same w h t hc
    simp only [Layout.Box.width, Layout.Box.height, hbox]
    omega
  · have hbox := crop_box_wider w h t (le_of_lt ht) hc
    have hub := crop_floor_lt_width w h t hh hc
    simp only [Layout.Box.width, Layout.Box.height, hbox]
    omega

/-- Witness for `crop_never_enlarges` on a 4×3 image already at target
ratio 4/3. -/
theorem crop_never_enlarges_witness :
    (Layout.crop_to_aspect 4 3 (4 / 3)).width ≤ ((4 : ℕ) : ℤ)
    ∧ (Layout.crop_to_aspect 4 3 (4 / 3)).height ≤ ((3 : ℕ) : ℤ)
    ∧ ((Layout.crop_to_aspect 4 3 (4 / 3)).width = ((4 : ℕ) : ℤ) ∨
        (Layout.crop_to_aspect 4 3 (4 / 3)).height = ((3 : ℕ) : ℤ)) :=
  crop_never_enlarges 4 3 (4 / 3) (by norm_num) (by norm_num)

/-- C8: the grid footprint is cols×cell_width + (cols+1)×margin points
(and the analogous row expression), and when it exceeds the chosen
page's dimensions the composer emits the warning and proceeds with the
layout unchanged — the produced document is exactly the row-major
pagination, neither aborted nor rescaled. -/
theorem layout_overflow_warns_and_proceeds (img_w img_h m : ℚ) (ps : String)
    (cols rows : ℕ) (images : List String) (pw ph : ℚ)
    (hps : Layout.PAGE_SIZES ps = some (pw, ph))
    (himg : images ≠ [])
    (hover : Layout.total_grid_width cols (img_w * 72) (m * 72) > pw ∨
      Layout.total_grid_height rows (img_h * 72) (m * 72) > ph) :
    Layout.total_grid_width cols (img_w * 72) (m * 72) =
      (cols : ℚ) * (img_w * 72) + ((cols : ℚ) + 1) * (m * 72)
    ∧ Layout.create_photo_layout img_w img_h m ps cols rows images =
      Layout.LayoutResult.done true
        ((Layout.paginate_images images (rows * cols)).map
          (fun pg => Layout.page_placements pg cols)) := by
  refine ⟨rfl, ?_⟩
  have hw : (decide (Layout.total_grid_width cols (img_w * 72) (m * 72) > pw) ||
      decide (Layout.total_grid_height rows (img_h * 72) (m * 72) > ph)) = true := by
    rcases hover with hov | hov <;> simp [hov]
  simp only [Layout.create_photo_layout, hps]
  rw [if_neg himg, hw]

/-- Witness for `layout_overflow_warns_and_proceeds`: a 3×3 grid of
4"×3" cells overflows a letter page, warns, and still lays out the one
image. -/
theorem layout_overflow_warns_and_proceeds_witness :
    Layout.create_photo_layout 4 3 (1 / 8) "letter" 3 3 ["a.jpg"] =
      Layout.LayoutResult.done true
        ((Layout.paginate_images ["a.jpg"] (3 * 3)).map
          (fun pg => Layout.page_placements pg 3)) :=
  (layout_overflow_warns_and_proceeds 4 3 (1 / 8) "letter" 3 3 ["a.jpg"] 612 792
    rfl (by decide) (Or.inl (by norm_num [Layout.total_grid_width]))).2
